import Mathlib

/-!
Verification development for the procurement/RFP management application.

The application is a Streamlit CRUD dashboard over a Supabase backend.  The
reasoned core is the evaluation scoring logic and the RFP/Proposal approval
workflow.  This file gives a shallow embedding of that core:

* the overall-score calculators of the two evaluation forms
  (`src/evaluation_pages.py`, `src/simple_evaluation.py`);
* the evaluation aggregation and derived status labels
  (`src/proposal_pages.py`, `src/main.py`);
* the RFP create/edit form gating (`src/rfp_pages.py`);
* a state machine over the persisted records (RFPs, team members, proposals,
  evaluations) whose actions are the user-triggerable handlers that mutate
  the store, faithful to the guards each page checks before issuing the
  corresponding database call.

Python float arithmetic is modelled as exact rational arithmetic over `ℚ`;
`int(...)` truncation of a nonnegative value is modelled as `Int.floor`.
Strings, statuses and the `"[PENDING_APPROVAL]"` summary-marker convention
are embedded literally.
-/

namespace Procurement

/-! ## Weighted score calculation (§4.1) -/


/-- Default evaluation criteria weights hard-coded in
`show_evaluate_proposal_page` (src/evaluation_pages.py lines 125-129).
The page never reads the RFP's declared weights; it always uses these
constants (functional 40, it_security 30, business 30). -/
def defaultFunctionalWeight : ℕ := 40

/-- Default it_security weight (src/evaluation_pages.py line 127). -/
def defaultSecurityWeight : ℕ := 30

/-- Default business weight (src/evaluation_pages.py line 128). -/
def defaultBusinessWeight : ℕ := 30

/-- Fuel-driven ⌊log₂ n⌋ (the fuel makes the recursion structural; fuel
`n` is always sufficient). -/
def natLog2Aux (fuel n : ℕ) : ℕ :=
  match fuel with
  | 0 => 0
  | fuel + 1 => if n ≥ 2 then natLog2Aux fuel (n / 2) + 1 else 0

/-- ⌊log₂ n⌋ for n ≥ 1 (0 at 0). -/
def natLog2F (n : ℕ) : ℕ := natLog2Aux n n

/-- The comprehensive form computes in Python floats (IEEE-754 binary64).
The nonnegative doubles arising in the score computation are modelled in
fixed point: a value x is stored as the natural number x·2^106, which is
exact for every double in the magnitudes that occur (each nonzero
intermediate value lies in [0.29, 101], well inside the normal range). -/
def dyadicScale : ℕ := 2 ^ 106

/-- The binary64 double nearest 0.4 — the value Python computes for
`defaultFunctionalWeight / 100` — namely 3602879701896397·2^-53, stored
as value·2^106. -/
def double04 : ℕ := 3602879701896397 * 2 ^ 53

/-- The binary64 double nearest 0.3 — the value Python computes for
`defaultSecurityWeight / 100` and `defaultBusinessWeight / 100` — namely
5404319552844595·2^-54, stored as value·2^106. -/
def double03 : ℕ := 5404319552844595 * 2 ^ 52

/-- IEEE-754 round to nearest, ties to even, on a fixed-point value
v = x·2^106: the double grid around x has step 2^(⌊log₂ x⌋ − 52), which in
fixed point is 2^(⌊log₂ v⌋ − 52); v is rounded to the nearest multiple of
that step, half to even.  Faithful for the normal, non-overflowing
magnitudes arising here. -/
def roundScaled (v : ℕ) : ℕ :=
  if v = 0 then 0
  else
    let unit := 2 ^ (natLog2F v - 52)
    let q := v / unit
    let r := v % unit
    if r < unit / 2 then q * unit
    else if unit / 2 < r then (q + 1) * unit
    else if q % 2 = 0 then q * unit else (q + 1) * unit

/-- Calculated overall score of the comprehensive evaluation form
(src/evaluation_pages.py lines 217-226):
`int(functional_score * 0.4 + security_score * 0.3 + business_score * 0.3)`,
the weights coming from the hard-coded default criteria above divided
by 100.  The arithmetic is Python float arithmetic: each `*` and `+`
rounds its exact result to the nearest binary64 (the products
`score * weight` are exact in fixed point before rounding, since the
integer scores are exact doubles), the sums associate left as in the
source, and `int(...)` truncates the nonnegative result toward zero.
This fixed-point model agrees with CPython on every score triple in
0..100³. -/
def evalPagesCalculatedOverall (functionalScore securityScore businessScore : ℕ) : ℤ :=
  let t1 := roundScaled (functionalScore * double04)
  let t2 := roundScaled (securityScore * double03)
  let t3 := roundScaled (businessScore * double03)
  ((roundScaled (roundScaled (t1 + t2) + t3) / dyadicScale : ℕ) : ℤ)

/-- Calculated average of the simplified evaluation form
(src/simple_evaluation.py line 74):
`int((functional_score + security_score + business_score) / 3)`.
This is the form `main` dispatches for the `evaluate_proposal` page
(src/main.py lines 603-604, "Use simplified version"). -/
def simpleCalculatedOverall (functionalScore securityScore businessScore : ℕ) : ℤ :=
  Int.floor (((functionalScore : ℚ) + securityScore + businessScore) / 3)

/-! ## Evaluation records and aggregation (§4.2) -/


/-- An evaluation record of the `evaluations` collection.  Score and
recommendation fields are optional because a freshly created record carries
only `proposal_id`, `evaluator_id` and `status` (src/proposal_pages.py
lines 212-216); the page code reads them with `e.get(..., 0)` /
`e.get(...)`. -/
structure Evaluation where
  id : ℕ
  proposalId : ℕ
  evaluatorId : ℕ
  status : String
  functionalScore : Option ℕ := none
  securityScore : Option ℕ := none
  businessScore : Option ℕ := none
  overallScore : Option ℕ := none
  recommendation : Option String := none
deriving Repr, DecidableEq

/-- `[e for e in evaluations if e.get('status') == 'completed']`
(src/proposal_pages.py line 472 and line 385). -/
def completedOf (evals : List Evaluation) : List Evaluation :=
  evals.filter (fun e => e.status == "completed")

/-- `sum(e.get('overall_score', 0) for e in evals) / len(evals)`
(src/proposal_pages.py line 481, src/main.py lines 826-827). -/
def avgOverall (evals : List Evaluation) : ℚ :=
  ((evals.map (fun e => e.overallScore.getD 0)).sum : ℚ) / (evals.length : ℚ)

/-- `sum(e.get('functional_score', 0) for e in evals) / len(evals)`
(src/proposal_pages.py lines 476-477). -/
def avgFunctional (evals : List Evaluation) : ℚ :=
  ((evals.map (fun e => e.functionalScore.getD 0)).sum : ℚ) / (evals.length : ℚ)

/-- `sum(1 for e in evals if e.get('recommendation') == 'recommend')`
(src/proposal_pages.py line 484). -/
def recommendCount (evals : List Evaluation) : ℕ :=
  (evals.filter (fun e => e.recommendation == some "recommend")).length

/-- Count of `conditional` recommendations (src/proposal_pages.py line 485). -/
def conditionalCount (evals : List Evaluation) : ℕ :=
  (evals.filter (fun e => e.recommendation == some "conditional")).length

/-- Count of `not_recommend` recommendations (src/proposal_pages.py line 486). -/
def notRecommendCount (evals : List Evaluation) : ℕ :=
  (evals.filter (fun e => e.recommendation == some "not_recommend")).length

/-- Derived status label of the proposal scorecard, computed from the
completed evaluations (src/proposal_pages.py lines 503-522).  Lines 504-509
compute a first label that lines 512-520 unconditionally overwrite
("Fix the logic ..."); the overwriting computation is the displayed value
and is what is embedded here. -/
def scorecardStatus (completed : List Evaluation) : String :=
  if recommendCount completed > notRecommendCount completed then
    if avgOverall completed ≥ 70 then "🟢 Strong Candidate" else "🟡 Conditional"
  else if recommendCount completed = notRecommendCount completed then "🟡 Conditional"
  else "🔴 Not Recommended"

/-- Quick status shown on the approvals page for a proposal pending approval
(src/main.py lines 845-850): Strong Candidate when the mean overall is at
least 70 and `recommend_count > total_evaluations - recommend_count`,
else Conditional when the mean is at least 50, else Weak Candidate. -/
def approvalsQuickStatus (completed : List Evaluation) : String :=
  if avgOverall completed ≥ 70 ∧
      recommendCount completed > completed.length - recommendCount completed then
    "🟢 **Strong Candidate** - Recommended for approval"
  else if avgOverall completed ≥ 50 then
    "🟡 **Conditional** - Review carefully"
  else
    "🔴 **Weak Candidate** - Consider rejecting"

/-- The classification policy exactly as the specification states it
(spec §4.2); spec-side definition used for the refinement comparison with the
code-side labels. -/
def claimDerivedLabel (completed : List Evaluation) : String :=
  if recommendCount completed > notRecommendCount completed ∧
      avgOverall completed ≥ 70 then "Strong Candidate"
  else if recommendCount completed > notRecommendCount completed then "Conditional"
  else if recommendCount completed = notRecommendCount completed then "Conditional"
  else "Not Recommended"

/-- Emoji decoration the scorecard adds to each label name. -/
def decorateLabel : String → String
  | "Strong Candidate" => "🟢 Strong Candidate"
  | "Conditional" => "🟡 Conditional"
  | "Not Recommended" => "🔴 Not Recommended"
  | s => s

/-- A completed evaluation with verdict `not_recommend` and a high overall
score, used to separate the two derived labels. -/
def notRecEvalA : Evaluation :=
  { id := 1, proposalId := 1, evaluatorId := 10, status := "completed",
    overallScore := some 80, recommendation := some "not_recommend" }

/-- A second completed `not_recommend` evaluation by another evaluator. -/
def notRecEvalB : Evaluation :=
  { id := 2, proposalId := 1, evaluatorId := 11, status := "completed",
    overallScore := some 80, recommendation := some "not_recommend" }

/-! ## The detailed-analysis aggregation (src/proposal_pages.py lines 377-396) -/


/-- Python truthiness of an optional numeric field: the filter
`if e.get('functional_score')` is false for a missing field and for a
stored 0. -/
def scoreTruthy : Option ℕ → Bool
  | none => false
  | some v => decide (v ≠ 0)

/-- `total_functional` of `show_proposal_details`
(src/proposal_pages.py lines 379-380): the functional scores are summed over
ALL evaluations with a truthy score, completed or not. -/
def detailsTotalFunctional (evals : List Evaluation) : ℕ :=
  ((evals.filter (fun e => scoreTruthy e.functionalScore)).map
    (fun e => e.functionalScore.getD 0)).sum

/-- `eval_count` of `show_proposal_details` (src/proposal_pages.py line 385):
the number of completed evaluations. -/
def detailsEvalCount (evals : List Evaluation) : ℕ := (completedOf evals).length

/-- The functional mean displayed by `show_proposal_details`
(src/proposal_pages.py line 390), computed when `eval_count > 0`:
a sum over all evaluations divided by the count of completed ones. -/
def detailsFunctionalMean (evals : List Evaluation) : ℚ :=
  (detailsTotalFunctional evals : ℚ) / (detailsEvalCount evals : ℚ)

/-- A completed evaluation with functional score 80. -/
def c9Completed : Evaluation :=
  { id := 1, proposalId := 1, evaluatorId := 10, status := "completed",
    functionalScore := some 80, securityScore := some 70,
    businessScore := some 75, overallScore := some 78,
    recommendation := some "recommend" }

/-- A pending (draft) evaluation whose saved draft carries functional
score 60. -/
def c9PendingDraft : Evaluation :=
  { id := 2, proposalId := 1, evaluatorId := 11, status := "pending",
    functionalScore := some 60 }

/-! ## RFP create / edit forms (src/rfp_pages.py) -/


/-- An RFP record with the fields the workflow logic reads: lifecycle status,
creator, and the three evaluation-criteria weights. -/
structure Rfp where
  id : ℕ
  title : String
  description : String
  status : String
  createdBy : ℕ
  functionalWeight : ℕ
  securityWeight : ℕ
  businessWeight : ℕ
deriving Repr, DecidableEq

/-- The `rfp_data` dict passed to `db.create_rfp`
(src/rfp_pages.py lines 128-137), restricted to the modelled fields. -/
structure RfpCreateData where
  title : String
  description : String
  functionalWeight : ℕ
  securityWeight : ℕ
  businessWeight : ℕ
  createdBy : ℕ
  status : String
deriving Repr, DecidableEq

/-- The `updates` dict passed to `db.update_rfp` by the edit page
(src/rfp_pages.py lines 281-289), restricted to the modelled fields. -/
structure RfpUpdateData where
  title : String
  description : String
  functionalWeight : ℕ
  securityWeight : ℕ
  businessWeight : ℕ
  status : String
deriving Repr, DecidableEq

/-- Outcome of submitting the create-RFP form (src/rfp_pages.py lines 59-149).
The submit button carries `disabled=(total_weight != 100)` (line 85), so a
click registers only when the three weights total 100; the handler then
re-checks `total_weight == 100` (line 87) and requires a non-empty title and
description (line 88) before calling `db.create_rfp` with status `draft`.
Returns the record handed to the persistence call, or `none` when no
persistence call is made. -/
def createRfpSubmit (clicked : Bool) (title description : String)
    (functionalWeight securityWeight businessWeight creator : ℕ) :
    Option RfpCreateData :=
  let totalWeight := functionalWeight + securityWeight + businessWeight
  let disabled := decide (totalWeight ≠ 100)
  let submitted := clicked && !disabled
  if submitted && totalWeight == 100 then
    if title == "" || description == "" then none
    else some { title, description, functionalWeight, securityWeight,
                businessWeight, createdBy := creator, status := "draft" }
  else none

/-- Outcome of the edit-RFP page for a loaded RFP and the acting user
(src/rfp_pages.py lines 152-303).  The page refuses any user other than the
creator (lines 168-170) and any RFP not in `draft` status (lines 173-176);
the Save / Submit-for-Approval buttons carry `disabled=(total_weight != 100)`
(lines 242-244); the handler requires a non-empty title and description
before calling `db.update_rfp` (lines 252-292), with status
`pending_approval` when submitting for approval, else `draft`.  Returns the
updates handed to the persistence call, or `none` when no persistence call
is made. -/
def editRfpSubmit (rfp : Rfp) (userId : ℕ) (saveClicked submitClicked : Bool)
    (title description : String)
    (functionalWeight securityWeight businessWeight : ℕ) :
    Option RfpUpdateData :=
  if rfp.createdBy ≠ userId then none
  else if rfp.status ≠ "draft" then none
  else
    let totalWeight := functionalWeight + securityWeight + businessWeight
    let disabled := decide (totalWeight ≠ 100)
    let saveButton := saveClicked && !disabled
    let submitForApproval := submitClicked && !disabled
    if saveButton || submitForApproval then
      if title == "" || description == "" then none
      else some { title, description, functionalWeight, securityWeight,
                  businessWeight,
                  status := if submitForApproval then "pending_approval"
                            else "draft" }
    else none

/-- A draft RFP by user 1 used to instantiate the form-gating theorems. -/
def draftRfp : Rfp :=
  { id := 7, title := "Cloud Infrastructure Services",
    description := "Cloud services procurement", status := "draft",
    createdBy := 1, functionalWeight := 40, securityWeight := 30,
    businessWeight := 30 }

/-- A published RFP by user 1 used to instantiate the edit-rejection
theorem. -/
def publishedRfp : Rfp :=
  { id := 8, title := "Networking Equipment",
    description := "Switch refresh", status := "published",
    createdBy := 1, functionalWeight := 40, securityWeight := 30,
    businessWeight := 30 }

/-! ## Workflow state machine (§4.3, §4.4)

The store is the four mutable record collections the workflow touches,
together with fresh-id counters standing for the backend's key generation.
Each `Action` is a user-triggerable handler that issues database writes; its
`step` embeds the guards the page checks before the write and the exact
updates the write performs. -/


/-- A team-member association (`rfp_team_members` collection). -/
structure TeamMember where
  rfpId : ℕ
  userId : ℕ
  role : String
deriving Repr, DecidableEq

/-- A proposal record with the fields the workflow reads. -/
structure Proposal where
  id : ℕ
  rfpId : ℕ
  vendorId : ℕ
  summary : String
  status : String
deriving Repr, DecidableEq

/-- The persisted store. -/
structure AppState where
  rfps : List Rfp
  team : List TeamMember
  proposals : List Proposal
  evaluations : List Evaluation
  nextRfpId : ℕ
  nextProposalId : ℕ
  nextEvaluationId : ℕ
deriving Repr, DecidableEq

/-- The empty store. -/
def initState : AppState :=
  { rfps := [], team := [], proposals := [], evaluations := [],
    nextRfpId := 0, nextProposalId := 0, nextEvaluationId := 0 }

/-- Row lookup by id (Supabase `eq("id", ...)` returning the first row). -/
def findRfp (s : AppState) (rfpId : ℕ) : Option Rfp :=
  s.rfps.find? (fun r => r.id == rfpId)

/-- Row lookup by id for proposals. -/
def findProposal (s : AppState) (propId : ℕ) : Option Proposal :=
  s.proposals.find? (fun p => p.id == propId)

/-- `get_evaluations_for_proposal` (src/config.py lines 191-196). -/
def evaluationsFor (s : AppState) (propId : ℕ) : List Evaluation :=
  s.evaluations.filter (fun e => e.proposalId == propId)

/-- The completed evaluations of a proposal. -/
def completedFor (s : AppState) (propId : ℕ) : List Evaluation :=
  completedOf (evaluationsFor s propId)

/-- `db.update_rfp(rfp_id, {"status": ...})`. -/
def setRfpStatus (rs : List Rfp) (rfpId : ℕ) (st : String) : List Rfp :=
  rs.map (fun r => if r.id == rfpId then { r with status := st } else r)

/-- `db.update_proposal(proposal_id, {"status": ...})`. -/
def setProposalStatus (ps : List Proposal) (propId : ℕ) (st : String) :
    List Proposal :=
  ps.map (fun p => if p.id == propId then { p with status := st } else p)

/-- `db.update_proposal(proposal_id, {"status": ..., "proposal_summary": ...})`. -/
def setProposalStatusSummary (ps : List Proposal) (propId : ℕ)
    (st sm : String) : List Proposal :=
  ps.map (fun p =>
    if p.id == propId then { p with status := st, summary := sm } else p)

/-- Python `str.startswith`, on the character lists of the strings. -/
def pyStartsWith (s pre : String) : Bool :=
  pre.data.isPrefixOf s.data

/-- Left-to-right replace-all on character lists, with a fuel argument (one
unit per consumed source character) so that the recursion is structural.
Models Python `str.replace` for a non-empty pattern. -/
def replaceAllAux (pat rep : List Char) : ℕ → List Char → List Char
  | _, [] => []
  | 0, s => s
  | fuel + 1, c :: cs =>
    if pat.isPrefixOf (c :: cs) && !pat.isEmpty then
      rep ++ replaceAllAux pat rep fuel ((c :: cs).drop pat.length)
    else c :: replaceAllAux pat rep fuel cs

/-- Python `s.replace(pat, rep)` for a non-empty pattern. -/
def pyReplace (s pat rep : String) : String :=
  ⟨replaceAllAux pat.data rep.data s.data.length s.data⟩

/-- Whether a proposal summary carries the pending-approval flag marker:
`proposal_summary.startswith('[PENDING_APPROVAL]')`
(src/main.py lines 696-697). -/
def pendingApprovalFlagged (p : Proposal) : Bool :=
  pyStartsWith p.summary "[PENDING_APPROVAL]"

/-- The marker clean-up run by the approver actions (src/main.py
lines 866-869, 905-908, 943-946):
`s.replace('[PENDING_APPROVAL] ', '') if s.startswith('[PENDING_APPROVAL]') else s`. -/
def stripApprovalMarker (sm : String) : String :=
  if pyStartsWith sm "[PENDING_APPROVAL]" then
    pyReplace sm "[PENDING_APPROVAL] " ""
  else sm

/-- The score fields of an evaluation form submission
(src/simple_evaluation.py lines 134-145). -/
structure EvaluationScores where
  functionalScore : ℕ
  securityScore : ℕ
  businessScore : ℕ
  overallScore : ℕ
  recommendation : String
deriving Repr, DecidableEq

/-- `db.update_evaluation(evaluation_id, evaluation_updates)` applied to one
record: writes the scores, the recommendation and the new status. -/
def applyEvaluationUpdate (e : Evaluation) (u : EvaluationScores)
    (st : String) : Evaluation :=
  { e with functionalScore := some u.functionalScore,
           securityScore := some u.securityScore,
           businessScore := some u.businessScore,
           overallScore := some u.overallScore,
           recommendation := some u.recommendation,
           status := st }

/-- The pending evaluation records created for the evaluator team members
when a proposal is submitted (src/proposal_pages.py lines 207-217): each
carries only the proposal id, the evaluator id and status `pending`. -/
def newEvaluations (baseId propId : ℕ) : List TeamMember → List Evaluation
  | [] => []
  | m :: ms =>
    { id := baseId, proposalId := propId, evaluatorId := m.userId,
      status := "pending" } :: newEvaluations (baseId + 1) propId ms

/-- The user-triggerable handlers that issue database writes. -/
inductive Action where
  /-- Create-RFP form submit (src/rfp_pages.py lines 85-149). -/
  | createRfp (creator : ℕ) (title description : String) (fw sw bw : ℕ)
  /-- Edit-RFP form submit; `submitForApproval` selects the second button
  (src/rfp_pages.py lines 240-303). -/
  | editRfp (userId rfpId : ℕ) (title description : String) (fw sw bw : ℕ)
      (submitForApproval : Bool)
  /-- Approve-RFP button on the approvals page (src/main.py lines 786-792);
  listed only for RFPs in `pending_approval`. -/
  | approveRfp (rfpId : ℕ)
  /-- Reject-RFP button (src/main.py lines 794-800); back to `draft`. -/
  | rejectRfp (rfpId : ℕ)
  /-- Publish button on the RFP view (src/rfp_pages.py lines 361-366);
  creator only, from `draft` or `approved`. -/
  | publishRfp (userId rfpId : ℕ)
  /-- "Publish RFP Without Team" (src/rfp_pages.py lines 554-560); creator
  only, no status guard. -/
  | publishRfpNoTeam (userId rfpId : ℕ)
  /-- Add-team-member form (src/rfp_pages.py lines 457-500); the selectable
  users exclude the creator and the existing members. -/
  | addTeamMember (rfpId userId : ℕ) (role : String)
  /-- Remove button next to a member (src/rfp_pages.py lines 449-453). -/
  | removeTeamMember (rfpId userId : ℕ)
  /-- Submit-proposal form (src/proposal_pages.py lines 129-225); offered
  only for RFPs in `published` or `evaluation`. -/
  | submitProposal (rfpId vendorId : ℕ) (summary : String)
      (sendToEvaluation : Bool)
  /-- Quick status change on the proposal overview
  (src/proposal_pages.py lines 316-331): any of the four proposal statuses
  can be selected and applied directly. -/
  | quickStatusChange (propId : ℕ) (newStatus : String)
  /-- Save-draft submit of the evaluation form
  (src/simple_evaluation.py lines 132-164). -/
  | saveEvaluationDraft (userId propId : ℕ) (scores : EvaluationScores)
  /-- Submit-final submit of the evaluation form
  (src/simple_evaluation.py lines 132-161): also moves the proposal to
  `under_review`. -/
  | submitEvaluation (userId propId : ℕ) (scores : EvaluationScores)
  /-- "Send for Approval" on the proposal evaluations page
  (src/proposal_pages.py lines 653-676); rendered only when every
  evaluation is completed and at least one exists. -/
  | sendForApproval (propId : ℕ)
  /-- "Approve Proposal" on the approvals page (src/main.py lines 862-898);
  listed only for flagged `under_review` proposals with a completed
  evaluation. -/
  | approveProposal (propId : ℕ)
  /-- "Reject Proposal" (src/main.py lines 902-938). -/
  | rejectProposal (propId : ℕ)
  /-- "Send Back for Review" (src/main.py lines 940-955). -/
  | sendBackForReview (propId : ℕ)
deriving Repr, DecidableEq

/-- One user action against the store: the guards each page checks before
issuing its database write, followed by the write itself.  A guard that
fails leaves the store unchanged (the page renders no write control or
refuses the submission). -/
def step (s : AppState) : Action → AppState
  | .createRfp creator title description fw sw bw =>
    match createRfpSubmit true title description fw sw bw creator with
    | none => s
    | some d =>
      let newRfp : Rfp :=
        { id := s.nextRfpId, title := d.title,
          description := d.description, status := d.status,
          createdBy := d.createdBy, functionalWeight := d.functionalWeight,
          securityWeight := d.securityWeight,
          businessWeight := d.businessWeight }
      { s with rfps := s.rfps ++ [newRfp], nextRfpId := s.nextRfpId + 1 }
  | .editRfp userId rfpId title description fw sw bw submitForApproval =>
    match findRfp s rfpId with
    | none => s
    | some rfp =>
      match editRfpSubmit rfp userId (!submitForApproval) submitForApproval
          title description fw sw bw with
      | none => s
      | some u =>
        { s with rfps := s.rfps.map (fun r =>
            if r.id == rfpId then
              { r with
                title := u.title,
                description := u.description,
                functionalWeight := u.functionalWeight,
                securityWeight := u.securityWeight,
                businessWeight := u.businessWeight,
                status := u.status }
            else r) }
  | .approveRfp rfpId =>
    match findRfp s rfpId with
    | none => s
    | some rfp =>
      if rfp.status == "pending_approval" then
        { s with rfps := setRfpStatus s.rfps rfpId "approved" }
      else s
  | .rejectRfp rfpId =>
    match findRfp s rfpId with
    | none => s
    | some rfp =>
      if rfp.status == "pending_approval" then
        { s with rfps := setRfpStatus s.rfps rfpId "draft" }
      else s
  | .publishRfp userId rfpId =>
    match findRfp s rfpId with
    | none => s
    | some rfp =>
      if rfp.createdBy == userId
          && (rfp.status == "draft" || rfp.status == "approved") then
        { s with rfps := setRfpStatus s.rfps rfpId "published" }
      else s
  | .publishRfpNoTeam userId rfpId =>
    match findRfp s rfpId with
    | none => s
    | some rfp =>
      if rfp.createdBy == userId then
        { s with rfps := setRfpStatus s.rfps rfpId "published" }
      else s
  | .addTeamMember rfpId userId role =>
    match findRfp s rfpId with
    | none => s
    | some rfp =>
      if (s.team.filter (fun m => m.rfpId == rfpId)).all
            (fun m => m.userId != userId)
          && userId != rfp.createdBy
          && (role == "evaluator" || role == "approver") then
        { s with team := s.team ++ [{ rfpId, userId, role }] }
      else s
  | .removeTeamMember rfpId userId =>
    let keep :=
      s.team.filter (fun m => !(m.rfpId == rfpId && m.userId == userId))
    { s with team := keep }
  | .submitProposal rfpId vendorId summary sendToEvaluation =>
    match findRfp s rfpId with
    | none => s
    | some rfp =>
      if rfp.status == "published" || rfp.status == "evaluation" then
        let evaluators := s.team.filter
          (fun m => m.rfpId == rfpId && m.role == "evaluator")
        let created :=
          if sendToEvaluation then
            newEvaluations s.nextEvaluationId s.nextProposalId evaluators
          else []
        let newProposal : Proposal :=
          { id := s.nextProposalId, rfpId, vendorId, summary,
            status := "submitted" }
        { s with
          proposals := s.proposals ++ [newProposal],
          evaluations := s.evaluations ++ created,
          rfps := if rfp.status == "published" then
              setRfpStatus s.rfps rfpId "evaluation"
            else s.rfps,
          nextProposalId := s.nextProposalId + 1,
          nextEvaluationId := s.nextEvaluationId + created.length }
      else s
  | .quickStatusChange propId newStatus =>
    match findProposal s propId with
    | none => s
    | some p =>
      if (newStatus == "submitted" || newStatus == "under_review"
            || newStatus == "shortlisted" || newStatus == "rejected")
          && newStatus != p.status then
        { s with proposals := setProposalStatus s.proposals propId newStatus }
      else s
  | .saveEvaluationDraft userId propId scores =>
    match s.evaluations.find?
        (fun e => e.proposalId == propId && e.evaluatorId == userId) with
    | none => s
    | some e =>
      let updated := s.evaluations.map (fun x =>
        if x.id == e.id then applyEvaluationUpdate x scores "pending" else x)
      { s with evaluations := updated }
  | .submitEvaluation userId propId scores =>
    match s.evaluations.find?
        (fun e => e.proposalId == propId && e.evaluatorId == userId) with
    | none => s
    | some e =>
      let updated := s.evaluations.map (fun x =>
        if x.id == e.id then applyEvaluationUpdate x scores "completed" else x)
      let ps := setProposalStatus s.proposals propId "under_review"
      { s with evaluations := updated, proposals := ps }
  | .sendForApproval propId =>
    let evals := evaluationsFor s propId
    let completed := completedOf evals
    if completed.length == evals.length && decide (0 < completed.length) then
      let ps := setProposalStatusSummary s.proposals propId "under_review"
        ("[PENDING_APPROVAL] " ++ "Proposal ready for approval")
      { s with proposals := ps }
    else s
  | .approveProposal propId =>
    match findProposal s propId with
    | none => s
    | some p =>
      if p.status == "under_review" && pendingApprovalFlagged p
          && decide (0 < (completedFor s propId).length) then
        let ps := setProposalStatusSummary s.proposals propId "shortlisted"
          (stripApprovalMarker p.summary)
        { s with proposals := ps }
      else s
  | .rejectProposal propId =>
    match findProposal s propId with
    | none => s
    | some p =>
      if p.status == "under_review" && pendingApprovalFlagged p
          && decide (0 < (completedFor s propId).length) then
        let ps := setProposalStatusSummary s.proposals propId "rejected"
          (stripApprovalMarker p.summary)
        { s with proposals := ps }
      else s
  | .sendBackForReview propId =>
    match findProposal s propId with
    | none => s
    | some p =>
      if p.status == "under_review" && pendingApprovalFlagged p
          && decide (0 < (completedFor s propId).length) then
        let ps := setProposalStatusSummary s.proposals propId "under_review"
          (stripApprovalMarker p.summary)
        { s with proposals := ps }
      else s

/-- Run a sequence of user actions. -/
def run (s : AppState) (acts : List Action) : AppState :=
  acts.foldl step s

/-- `DatabaseManager.create_evaluation` (src/config.py lines 175-178): an
unconditional insert into the evaluations collection, with no uniqueness
check on the (proposal, evaluator) pair. -/
def createEvaluationDb (evaluations : List Evaluation) (e : Evaluation) :
    List Evaluation :=
  evaluations ++ [e]

/-- No two evaluation records share a (proposal, evaluator) pair. -/
def EvalPairsUnique (evals : List Evaluation) : Prop :=
  List.Pairwise
    (fun a b => ¬(a.proposalId = b.proposalId ∧ a.evaluatorId = b.evaluatorId))
    evals

/-- No two team-member rows share an (RFP, user) pair. -/
def TeamPairsUnique (team : List TeamMember) : Prop :=
  List.Pairwise (fun a b => ¬(a.rfpId = b.rfpId ∧ a.userId = b.userId)) team

/-- The machine invariant: evaluation pairs are unique, team pairs are
unique, and every evaluation refers to an already-allocated proposal id. -/
def Inv (s : AppState) : Prop :=
  EvalPairsUnique s.evaluations ∧ TeamPairsUnique s.team ∧
    ∀ e ∈ s.evaluations, e.proposalId < s.nextProposalId

/-- Whether an action is the proposal-overview quick status change. -/
def isQuickStatusChange : Action → Bool
  | .quickStatusChange _ _ => true
  | _ => false

/-! ## Concrete fixtures used to instantiate the workflow theorems -/


/-- A published RFP owned by user 1. -/
def publishedWorkflowRfp : Rfp :=
  { id := 0, title := "ERP System", description := "ERP procurement",
    status := "published", createdBy := 1, functionalWeight := 40,
    securityWeight := 30, businessWeight := 30 }

/-- A store holding one published RFP and nothing else. -/
def publishedState : AppState :=
  { rfps := [publishedWorkflowRfp], team := [], proposals := [],
    evaluations := [], nextRfpId := 1, nextProposalId := 0,
    nextEvaluationId := 0 }

/-- A proposal under review whose summary is ordinary vendor text. -/
def origProposal : Proposal :=
  { id := 0, rfpId := 0, vendorId := 5, summary := "Original vendor summary",
    status := "under_review" }

/-- A completed evaluation of `origProposal` by evaluator 10. -/
def doneEval : Evaluation :=
  { id := 0, proposalId := 0, evaluatorId := 10, status := "completed",
    functionalScore := some 80, securityScore := some 60,
    businessScore := some 70, overallScore := some 75,
    recommendation := some "recommend" }

/-- A still-pending evaluation of `origProposal` by evaluator 11. -/
def pendingEval : Evaluation :=
  { id := 1, proposalId := 0, evaluatorId := 11, status := "pending" }

/-- A store where the single proposal has its one evaluation completed. -/
def approvalState : AppState :=
  { rfps := [{ publishedWorkflowRfp with status := "evaluation" }],
    team := [{ rfpId := 0, userId := 10, role := "evaluator" }],
    proposals := [origProposal], evaluations := [doneEval],
    nextRfpId := 1, nextProposalId := 1, nextEvaluationId := 1 }

/-- A store where one of the two evaluations is still pending. -/
def approvalStateIncomplete : AppState :=
  { rfps := [{ publishedWorkflowRfp with status := "evaluation" }],
    team := [{ rfpId := 0, userId := 10, role := "evaluator" },
      { rfpId := 0, userId := 11, role := "evaluator" }],
    proposals := [origProposal], evaluations := [doneEval, pendingEval],
    nextRfpId := 1, nextProposalId := 1, nextEvaluationId := 1 }

/-- A pending evaluation for proposal 3 by evaluator 9. -/
def dupEvalA : Evaluation :=
  { id := 1, proposalId := 3, evaluatorId := 9, status := "pending" }

/-- A second evaluation record for the same (proposal 3, evaluator 9) pair. -/
def dupEvalB : Evaluation :=
  { id := 2, proposalId := 3, evaluatorId := 9, status := "pending" }

/-- `origProposal` after the send-for-approval write. -/
def flaggedProposal : Proposal :=
  { origProposal with
    status := "under_review",
    summary := "[PENDING_APPROVAL] Proposal ready for approval" }

/-- `approvalState` with its proposal already flagged for approval. -/
def flaggedState : AppState :=
  { approvalState with proposals := [flaggedProposal] }

/-- A reachable action sequence: create an RFP, publish it, submit a
proposal against it (with no evaluators assigned), then use the
proposal-overview quick status change to set the proposal straight to
`shortlisted`. -/
def quickShortlistTrace : List Action :=
  [Action.createRfp 1 "ERP System" "ERP procurement" 40 30 30,
   Action.publishRfp 1 0,
   Action.submitProposal 0 5 "Vendor proposal" true,
   Action.quickStatusChange 0 "shortlisted"]

/-! ## Theorems -/

/-- The simple average of the simplified form reduces to a natural floor
division by 3. -/
lemma simpleCalculatedOverall_eq (f s b : ℕ) :
    simpleCalculatedOverall f s b = ((f + s + b) / 3 : ℕ) := by
  have h : ((f : ℚ) + s + b) = (((f + s + b : ℕ) : ℤ) : ℚ) := by push_cast; ring
  have h3 : ((3 : ℚ)) = ((3 : ℕ) : ℚ) := by norm_num
  rw [simpleCalculatedOverall, h, h3, Rat.floor_intCast_div_natCast, Int.natCast_div]

set_option maxRecDepth 8000 in
/-- C1 counterexample: at functional=80, security=60, business=70 the evaluation
form the application actually dispatches (the simplified form of
src/simple_evaluation.py) suggests `int((80+60+70)/3) = 70`, not the 71 that the
claim's weighted formula requires; the comprehensive form's weighted calculation
gives 71, so the suggested score is not the claimed weighted floor. -/
theorem C1_counterexample :
    simpleCalculatedOverall 80 60 70 = 70 ∧
    evalPagesCalculatedOverall 80 60 70 = 71 ∧
    simpleCalculatedOverall 80 60 70 ≠ evalPagesCalculatedOverall 80 60 70 := by
  have h1 : simpleCalculatedOverall 80 60 70 = 70 := by
    rw [simpleCalculatedOverall_eq]
    norm_num
  have h2 : evalPagesCalculatedOverall 80 60 70 = 71 := by decide
  refine ⟨h1, h2, ?_⟩
  rw [h1, h2]
  decide

set_option maxRecDepth 8000 in
/-- C1 (amended): the simplified evaluation form — the one `main` routes
evaluators to — computes `⌊(f + s + b)/3⌋` for every input; the
comprehensive form computes the weighted score from the hard-coded default
weights 40/30/30 (not the declared weights of the RFP) in Python float
arithmetic, which yields 71 at the specification example 80/60/70 but can
deviate from the exact weighted floor: at scores (0, 1, 9) it suggests 2
while the exact floor `(40·f + 30·s + 30·b)/100` is 3. -/
theorem C1_amended_calculators :
    (∀ f s b : ℕ, simpleCalculatedOverall f s b = ((f + s + b) / 3 : ℕ)) ∧
    evalPagesCalculatedOverall 80 60 70 = 71 ∧
    evalPagesCalculatedOverall 0 1 9 = 2 ∧
    ((40 * 0 + 30 * 1 + 30 * 9) / 100 : ℕ) = 3 :=
  ⟨simpleCalculatedOverall_eq, by decide, by decide, by decide⟩

/-- C2 counterexample: for two completed evaluations that both vote
`not_recommend` (mean overall 80), the claimed rule requires the label
"Not Recommended", and the proposal scorecard indeed shows it — but the
approvals page derives "Conditional" for the same set of completed
evaluations, so the claimed rule does not hold for every derived status
label. -/
theorem C2_counterexample :
    claimDerivedLabel [notRecEvalA, notRecEvalB] = "Not Recommended" ∧
    scorecardStatus [notRecEvalA, notRecEvalB] = "🔴 Not Recommended" ∧
    approvalsQuickStatus [notRecEvalA, notRecEvalB] =
      "🟡 **Conditional** - Review carefully" ∧
    approvalsQuickStatus [notRecEvalA, notRecEvalB] ≠
      decorateLabel (claimDerivedLabel [notRecEvalA, notRecEvalB]) := by
  have havg : avgOverall [notRecEvalA, notRecEvalB] = 80 := by
    norm_num [avgOverall, notRecEvalA, notRecEvalB]
  have hrc : recommendCount [notRecEvalA, notRecEvalB] = 0 := by decide
  have hq : approvalsQuickStatus [notRecEvalA, notRecEvalB] =
      "🟡 **Conditional** - Review carefully" := by
    simp only [approvalsQuickStatus, havg, hrc]
    norm_num
  refine ⟨by decide, by decide, hq, ?_⟩
  rw [hq]
  have hc : claimDerivedLabel [notRecEvalA, notRecEvalB] = "Not Recommended" := by decide
  rw [hc]
  decide

/-- C2 (amended): the proposal scorecard label follows the claimed
classification policy exactly (up to emoji decoration); the approvals page
quick status uses a different rule (mean ≥ 70 with recommends outnumbering
all other verdicts, else mean ≥ 50 means Conditional) and deviates from the
policy. -/
theorem C2_amended_scorecard_follows_policy (completed : List Evaluation) :
    scorecardStatus completed = decorateLabel (claimDerivedLabel completed) := by
  by_cases h1 : recommendCount completed > notRecommendCount completed
  · by_cases h2 : avgOverall completed ≥ 70 <;>
      simp [scorecardStatus, claimDerivedLabel, decorateLabel, h1, h2]
  · by_cases h3 : recommendCount completed = notRecommendCount completed <;>
      simp [scorecardStatus, claimDerivedLabel, decorateLabel, h1, h3]

/-- C9 (code bug): for one completed evaluation (functional 80) plus one
pending draft (functional 60), the detailed-analysis page displays a
functional mean of 140 — the pending draft score leaks into the numerator
while the denominator counts only completed evaluations — whereas the mean
over the completed evaluations alone (as the scorecard computes it, and as
the claim requires) is 80. -/
theorem C9_details_mean_includes_pending :
    detailsFunctionalMean [c9Completed, c9PendingDraft] = 140 ∧
    avgFunctional (completedOf [c9Completed, c9PendingDraft]) = 80 ∧
    detailsFunctionalMean [c9Completed, c9PendingDraft] ≠
      avgFunctional (completedOf [c9Completed, c9PendingDraft]) := by
  have ht : detailsTotalFunctional [c9Completed, c9PendingDraft] = 140 := by decide
  have hn : detailsEvalCount [c9Completed, c9PendingDraft] = 1 := by decide
  have hco : completedOf [c9Completed, c9PendingDraft] = [c9Completed] := by decide
  have h1 : detailsFunctionalMean [c9Completed, c9PendingDraft] = 140 := by
    simp only [detailsFunctionalMean, ht, hn]
    norm_num
  have h2 : avgFunctional (completedOf [c9Completed, c9PendingDraft]) = 80 := by
    rw [hco]
    norm_num [avgFunctional, c9Completed]
  refine ⟨h1, h2, ?_⟩
  rw [h1, h2]
  norm_num

/-- C3: an RFP create or edit submission reaches a persistence call only when
the three evaluation-criteria weights sum to exactly 100; for any other total
(such as 99 or 101) both forms reject the submission before any persistence
call. -/
theorem C3_weights_gate (clicked saveClicked submitClicked : Bool)
    (title description : String)
    (fw sw bw creator userId : ℕ) (rfp : Rfp)
    (h : fw + sw + bw ≠ 100) :
    createRfpSubmit clicked title description fw sw bw creator = none ∧
    editRfpSubmit rfp userId saveClicked submitClicked title description
      fw sw bw = none := by
  have hb : (fw + sw + bw == 100) = false := by
    simpa using h
  have hd : decide (fw + sw + bw ≠ 100) = true := by
    simpa using h
  constructor
  · simp [createRfpSubmit, hb, hd]
  · simp [editRfpSubmit, hd]

/-- C3 witness: weight totals 99 (40/30/29) and 101 (40/30/31) are rejected
by the create and edit forms with no persistence call. -/
theorem C3_weights_gate_witness :
    createRfpSubmit true "Cloud Infrastructure Services" "Cloud services"
      40 30 29 1 = none ∧
    editRfpSubmit draftRfp 1 true false "Cloud Infrastructure Services"
      "Cloud services" 40 30 31 = none :=
  ⟨(C3_weights_gate true true false "Cloud Infrastructure Services"
      "Cloud services" 40 30 29 1 1 draftRfp (by decide)).1,
   (C3_weights_gate true true false "Cloud Infrastructure Services"
      "Cloud services" 40 30 31 1 1 draftRfp (by decide)).2⟩

/-- C8: editing an RFP whose status is not `draft` is rejected — no update is
persisted — for every acting user, the creator included. -/
theorem C8_edit_rejected_outside_draft (rfp : Rfp) (userId : ℕ)
    (saveClicked submitClicked : Bool) (title description : String)
    (fw sw bw : ℕ) (h : rfp.status ≠ "draft") :
    editRfpSubmit rfp userId saveClicked submitClicked title description
      fw sw bw = none := by
  simp only [editRfpSubmit, h]
  split_ifs <;> simp

/-- C8 witness: the creator of a published RFP cannot persist an edit, even
with valid weights and fields. -/
theorem C8_edit_rejected_witness :
    editRfpSubmit publishedRfp 1 true false "Networking Equipment"
      "Switch refresh" 40 30 30 = none :=
  C8_edit_rejected_outside_draft publishedRfp 1 true false
    "Networking Equipment" "Switch refresh" 40 30 30 (by decide)

/-! ## Supporting lemmas about the record-update helpers -/


/-- `find?` commutes with a map that leaves the search predicate
unchanged. -/
lemma find?_map_pred_inv {α : Type} (l : List α) (f : α → α) (p : α → Bool)
    (hf : ∀ x, p (f x) = p x) : (l.map f).find? p = (l.find? p).map f := by
  rw [List.find?_map]
  have hpf : p ∘ f = p := funext hf
  rw [hpf]

/-- Looking up an RFP after a status write returns the written row. -/
lemma find?_setRfpStatus (rs : List Rfp) (t : ℕ) (st : String) (i : ℕ) :
    (setRfpStatus rs t st).find? (fun r => r.id == i) =
      (rs.find? (fun r => r.id == i)).map
        (fun r => if r.id == t then { r with status := st } else r) := by
  unfold setRfpStatus
  apply find?_map_pred_inv
  intro x
  by_cases hx : (x.id == t) = true <;> simp [hx]

/-- Looking up a proposal after a status write returns the written row. -/
lemma find?_setProposalStatus (ps : List Proposal) (t : ℕ) (st : String)
    (i : ℕ) :
    (setProposalStatus ps t st).find? (fun p => p.id == i) =
      (ps.find? (fun p => p.id == i)).map
        (fun p => if p.id == t then { p with status := st } else p) := by
  unfold setProposalStatus
  apply find?_map_pred_inv
  intro x
  by_cases hx : (x.id == t) = true <;> simp [hx]

/-- Looking up a proposal after a status-and-summary write returns the
written row. -/
lemma find?_setProposalStatusSummary (ps : List Proposal) (t : ℕ)
    (st sm : String) (i : ℕ) :
    (setProposalStatusSummary ps t st sm).find? (fun p => p.id == i) =
      (ps.find? (fun p => p.id == i)).map
        (fun p => if p.id == t then { p with status := st, summary := sm }
                  else p) := by
  unfold setProposalStatusSummary
  apply find?_map_pred_inv
  intro x
  by_cases hx : (x.id == t) = true <;> simp [hx]

/-- C6: submitting a proposal against a `published` RFP sets the RFP status
to `evaluation`, and every subsequent proposal submission against the same
RFP (now in `evaluation`) leaves the whole RFP collection untouched: the
transition is not re-triggered. -/
theorem C6_published_to_evaluation (s : AppState) (rfpId vendorId : ℕ)
    (summary : String) (sendToEvaluation : Bool) (rfp : Rfp)
    (hfind : findRfp s rfpId = some rfp) (hstat : rfp.status = "published") :
    findRfp (step s (.submitProposal rfpId vendorId summary sendToEvaluation))
        rfpId = some { rfp with status := "evaluation" } ∧
    ∀ vendorId2 summary2 sendToEvaluation2,
      (step (step s (.submitProposal rfpId vendorId summary sendToEvaluation))
          (.submitProposal rfpId vendorId2 summary2 sendToEvaluation2)).rfps
        = (step s (.submitProposal rfpId vendorId summary
            sendToEvaluation)).rfps := by
  have hfind' : s.rfps.find? (fun r => r.id == rfpId) = some rfp := hfind
  have hid : (rfp.id == rfpId) = true := by
    have h2 := List.find?_some hfind'
    simpa using h2
  have hstep : step s (.submitProposal rfpId vendorId summary sendToEvaluation)
      = { s with
        proposals := s.proposals ++
          [{ id := s.nextProposalId, rfpId := rfpId, vendorId := vendorId,
             summary := summary, status := "submitted" }],
        evaluations := s.evaluations ++
          (if sendToEvaluation then
            newEvaluations s.nextEvaluationId s.nextProposalId
              (s.team.filter (fun m => m.rfpId == rfpId && m.role == "evaluator"))
          else []),
        rfps := setRfpStatus s.rfps rfpId "evaluation",
        nextProposalId := s.nextProposalId + 1,
        nextEvaluationId := s.nextEvaluationId +
          (if sendToEvaluation then
            newEvaluations s.nextEvaluationId s.nextProposalId
              (s.team.filter (fun m => m.rfpId == rfpId && m.role == "evaluator"))
          else []).length } := by
    simp [step, hfind, hstat]
  have heq : rfp.id = rfpId := by simpa using hid
  have hfind1 : findRfp
      (step s (.submitProposal rfpId vendorId summary sendToEvaluation)) rfpId
      = some { rfp with status := "evaluation" } := by
    rw [hstep]
    show (setRfpStatus s.rfps rfpId "evaluation").find?
      (fun r => r.id == rfpId) = _
    rw [find?_setRfpStatus, hfind']
    simp [heq]
  refine ⟨hfind1, ?_⟩
  intro vendorId2 summary2 sendToEvaluation2
  set s1 := step s (.submitProposal rfpId vendorId summary sendToEvaluation)
    with hs1
  simp only [step]
  rw [hfind1]
  simp

/-- C6 witness: in a store with one published RFP, the first proposal
submission moves it to `evaluation` and a second submission changes no RFP
row. -/
theorem C6_published_to_evaluation_witness :
    findRfp (step publishedState (.submitProposal 0 5 "ERP proposal" true)) 0
      = some { publishedWorkflowRfp with status := "evaluation" } ∧
    (step (step publishedState (.submitProposal 0 5 "ERP proposal" true))
        (.submitProposal 0 6 "Second proposal" false)).rfps
      = (step publishedState (.submitProposal 0 5 "ERP proposal" true)).rfps :=
  ⟨(C6_published_to_evaluation publishedState 0 5 "ERP proposal" true
      publishedWorkflowRfp (by decide) (by decide)).1,
   (C6_published_to_evaluation publishedState 0 5 "ERP proposal" true
      publishedWorkflowRfp (by decide) (by decide)).2 6 "Second proposal" false⟩

/-- When some evaluation of the proposal is not completed (the counts
differ), the send-for-approval control is not rendered and the store is
unchanged. -/
lemma step_sendForApproval_noop (s : AppState) (propId : ℕ)
    (hne : (completedFor s propId).length ≠ (evaluationsFor s propId).length) :
    step s (.sendForApproval propId) = s := by
  have hb : ((completedOf (evaluationsFor s propId)).length ==
      (evaluationsFor s propId).length) = false := by
    simpa [completedFor] using hne
  simp [step, hb]

/-- When every evaluation is completed and at least one exists, the
send-for-approval write fires. -/
lemma step_sendForApproval_eq (s : AppState) (propId : ℕ)
    (hcEq : (completedFor s propId).length = (evaluationsFor s propId).length)
    (hpos : 0 < (evaluationsFor s propId).length) :
    step s (.sendForApproval propId) =
      { s with
        proposals := setProposalStatusSummary s.proposals propId
          "under_review"
          ("[PENDING_APPROVAL] " ++ "Proposal ready for approval") } := by
  have h1 : ((completedOf (evaluationsFor s propId)).length ==
      (evaluationsFor s propId).length) = true := by
    simpa [completedFor] using hcEq
  have h2 : decide (0 < (completedOf (evaluationsFor s propId)).length)
      = true := by
    have : 0 < (completedFor s propId).length := hcEq ▸ hpos
    simpa [completedFor] using this
  simp [step, h1, h2]

/-- After a fired send-for-approval, the proposal row carries status
`under_review` and the constant flagged summary. -/
lemma findProposal_after_sendForApproval (s : AppState) (propId : ℕ)
    (p : Proposal) (hp : findProposal s propId = some p)
    (hcEq : (completedFor s propId).length = (evaluationsFor s propId).length)
    (hpos : 0 < (evaluationsFor s propId).length) :
    findProposal (step s (.sendForApproval propId)) propId =
      some { p with
        status := "under_review",
        summary := "[PENDING_APPROVAL] Proposal ready for approval" } := by
  have hp' : s.proposals.find? (fun q => q.id == propId) = some p := hp
  have hpid : p.id = propId := by
    have h2 := List.find?_some hp'
    simpa using h2
  rw [step_sendForApproval_eq s propId hcEq hpos]
  show (setProposalStatusSummary s.proposals propId "under_review"
      ("[PENDING_APPROVAL] " ++ "Proposal ready for approval")).find?
      (fun q => q.id == propId) = _
  rw [find?_setProposalStatusSummary, hp']
  simp [hpid]

/-- Cleaning the pending-approval marker from the constant summary written
by send-for-approval yields the bare constant text. -/
lemma stripApprovalMarker_const :
    stripApprovalMarker "[PENDING_APPROVAL] Proposal ready for approval"
      = "Proposal ready for approval" := by
  decide

/-- When a proposal is flagged `under_review` with a completed evaluation,
the approve action rewrites it to `shortlisted` with the cleaned summary. -/
lemma step_approveProposal_eq (s : AppState) (propId : ℕ) (p : Proposal)
    (hp : findProposal s propId = some p)
    (hstatus : p.status = "under_review")
    (hflag : pendingApprovalFlagged p = true)
    (hpos : 0 < (completedFor s propId).length) :
    step s (.approveProposal propId) =
      { s with
        proposals := setProposalStatusSummary s.proposals propId
          "shortlisted" (stripApprovalMarker p.summary) } := by
  have hguard : (p.status == "under_review" && pendingApprovalFlagged p
      && decide (0 < (completedFor s propId).length)) = true := by
    simp [hstatus, hflag, hpos]
  simp [step, hp, hguard]

/-- C7: the send-for-approval action fires only when the completed count
equals the total evaluation count (when the counts differ the action is
unavailable and the store is unchanged); when it fires, the proposal moves
to `under_review` and its summary becomes the flagged text, which starts
with the `[PENDING_APPROVAL]` marker. -/
theorem C7_send_for_approval_gate (s : AppState) (propId : ℕ) (p : Proposal)
    (hp : findProposal s propId = some p) :
    ((completedFor s propId).length ≠ (evaluationsFor s propId).length →
      step s (.sendForApproval propId) = s) ∧
    ((completedFor s propId).length = (evaluationsFor s propId).length →
      0 < (evaluationsFor s propId).length →
      findProposal (step s (.sendForApproval propId)) propId =
        some { p with
          status := "under_review",
          summary := "[PENDING_APPROVAL] Proposal ready for approval" } ∧
      pyStartsWith "[PENDING_APPROVAL] Proposal ready for approval"
        "[PENDING_APPROVAL]" = true) := by
  refine ⟨fun hne => step_sendForApproval_noop s propId hne, ?_⟩
  intro hcEq hpos
  exact ⟨findProposal_after_sendForApproval s propId p hp hcEq hpos, by decide⟩

/-- C7 witness: with one of two evaluations pending the action is a no-op;
with the single evaluation completed it rewrites the proposal row. -/
theorem C7_send_for_approval_gate_witness :
    step approvalStateIncomplete (.sendForApproval 0)
      = approvalStateIncomplete ∧
    findProposal (step approvalState (.sendForApproval 0)) 0 =
      some { origProposal with
        status := "under_review",
        summary := "[PENDING_APPROVAL] Proposal ready for approval" } :=
  ⟨(C7_send_for_approval_gate approvalStateIncomplete 0 origProposal
      (by decide)).1 (by decide),
   ((C7_send_for_approval_gate approvalState 0 origProposal
      (by decide)).2 (by decide) (by decide)).1⟩

/-- C10: send-for-approval replaces the proposal summary with the constant
string `[PENDING_APPROVAL] Proposal ready for approval`, whatever the
summary was before; after a subsequent approval strips the marker, the
summary is the constant `Proposal ready for approval`, not the original
text. -/
theorem C10_summary_discarded (s : AppState) (propId : ℕ) (p : Proposal)
    (hp : findProposal s propId = some p)
    (hcEq : (completedFor s propId).length = (evaluationsFor s propId).length)
    (hpos : 0 < (evaluationsFor s propId).length) :
    (findProposal (step s (.sendForApproval propId)) propId).map
        Proposal.summary
      = some "[PENDING_APPROVAL] Proposal ready for approval" ∧
    (findProposal (step (step s (.sendForApproval propId))
        (.approveProposal propId)) propId).map Proposal.summary
      = some "Proposal ready for approval" := by
  have hpid : p.id = propId := by
    have hp' : s.proposals.find? (fun q => q.id == propId) = some p := hp
    have h2 := List.find?_some hp'
    simpa using h2
  have hfind1 := findProposal_after_sendForApproval s propId p hp hcEq hpos
  refine ⟨by rw [hfind1]; rfl, ?_⟩
  have hstep1 := step_sendForApproval_eq s propId hcEq hpos
  set s1 := step s (.sendForApproval propId) with hs1
  have hcomp : completedFor s1 propId = completedFor s propId := by
    unfold completedFor evaluationsFor
    rw [hstep1]
  have hpos1 : 0 < (completedFor s1 propId).length := by
    rw [hcomp]
    exact hcEq ▸ hpos
  have happrove := step_approveProposal_eq s1 propId
    { p with
      status := "under_review",
      summary := "[PENDING_APPROVAL] Proposal ready for approval" }
    hfind1 rfl rfl hpos1
  rw [happrove]
  show ((setProposalStatusSummary s1.proposals propId "shortlisted" _).find?
    (fun q => q.id == propId)).map Proposal.summary = _
  rw [find?_setProposalStatusSummary]
  have hp1 : s1.proposals.find? (fun q => q.id == propId) =
      some { p with
        status := "under_review",
        summary := "[PENDING_APPROVAL] Proposal ready for approval" } :=
    hfind1
  rw [hp1]
  have hstrip : stripApprovalMarker ({ p with
      status := "under_review",
      summary := "[PENDING_APPROVAL] Proposal ready for approval"
      : Proposal }).summary = "Proposal ready for approval" :=
    stripApprovalMarker_const
  simp [hpid, hstrip]

/-- C10 witness: for the proposal whose summary was
"Original vendor summary", send-for-approval stores the constant flagged
text and a subsequent approval leaves "Proposal ready for approval" — the
original text is gone. -/
theorem C10_summary_discarded_witness :
    (findProposal (step approvalState (.sendForApproval 0)) 0).map
        Proposal.summary
      = some "[PENDING_APPROVAL] Proposal ready for approval" ∧
    (findProposal (step (step approvalState (.sendForApproval 0))
        (.approveProposal 0)) 0).map Proposal.summary
      = some "Proposal ready for approval" :=
  C10_summary_discarded approvalState 0 origProposal (by decide) (by decide)
    (by decide)

/-- C4 counterexample: a reachable four-action sequence — create an RFP,
publish it, submit a proposal (status `submitted`), then apply the
proposal-overview quick status change — takes the proposal straight from
`submitted` to `shortlisted`; it was never in `under_review` and never
carried the `[PENDING_APPROVAL]` marker. -/
theorem C4_counterexample :
    (findProposal (run initState quickShortlistTrace) 0).map Proposal.status
      = some "shortlisted" ∧
    (findProposal (run initState (quickShortlistTrace.take 3)) 0).map
        Proposal.status = some "submitted" ∧
    (findProposal (run initState (quickShortlistTrace.take 3)) 0).map
        pendingApprovalFlagged = some false := by
  refine ⟨?_, ?_, ?_⟩ <;> decide

/-- If an action leaves the proposal collection untouched, the looked-up row
is unchanged. -/
lemma find_eq_of_proposals_unchanged {s s2 : AppState} {propId : ℕ}
    {p q : Proposal} (hps : s2.proposals = s.proposals)
    (hp : findProposal s propId = some p)
    (hq : findProposal s2 propId = some q) : q = p := by
  unfold findProposal at hp hq
  rw [hps, hp] at hq
  exact (Option.some.inj hq).symm

/-- Discharges the cases of the one-step shortlist analysis in which the
acting handler does not write to the proposal collection. -/
lemma shortlist_case_unchanged {s s2 : AppState} {propId : ℕ}
    {p q : Proposal} (hps : s2.proposals = s.proposals)
    (hp : findProposal s propId = some p)
    (hq : findProposal s2 propId = some q)
    (hqs : q.status = "shortlisted") :
    p.status = "shortlisted" ∨
      (p.status = "under_review" ∧ pendingApprovalFlagged p = true) := by
  have hqp : q = p := find_eq_of_proposals_unchanged hps hp hq
  rw [hqp] at hqs
  exact Or.inl hqs

/-- After a status write targeting proposal `t`, the row found for `propId`
is the conditionally updated original row. -/
lemma row_after_status_write {ps : List Proposal} {propId t : ℕ}
    {st : String} {p q : Proposal}
    (hp : ps.find? (fun x => x.id == propId) = some p)
    (hq : (setProposalStatus ps t st).find? (fun x => x.id == propId)
      = some q) :
    q = if p.id == t then { p with status := st } else p := by
  rw [find?_setProposalStatus, hp] at hq
  exact (Option.some.inj hq).symm

/-- After a status-and-summary write targeting proposal `t`, the row found
for `propId` is the conditionally updated original row. -/
lemma row_after_status_summary_write {ps : List Proposal} {propId t : ℕ}
    {st sm : String} {p q : Proposal}
    (hp : ps.find? (fun x => x.id == propId) = some p)
    (hq : (setProposalStatusSummary ps t st sm).find?
      (fun x => x.id == propId) = some q) :
    q = if p.id == t then { p with status := st, summary := sm } else p := by
  rw [find?_setProposalStatusSummary, hp] at hq
  exact (Option.some.inj hq).symm

/-- C4 (amended): excluding the proposal-overview quick status change, a
single user action can make a proposal `shortlisted` only if the proposal
already was `shortlisted` or was in `under_review` with the
`[PENDING_APPROVAL]` marker on its summary (the approvals-page guard).  The
quick status change itself has no such guard, so the original
out-of-order-freedom claim fails — see the counterexample. -/
theorem C4_amended_shortlisted_needs_flagged_review (s : AppState)
    (a : Action) (propId : ℕ) (p q : Proposal)
    (ha : isQuickStatusChange a = false)
    (hp : findProposal s propId = some p)
    (hq : findProposal (step s a) propId = some q)
    (hqs : q.status = "shortlisted") :
    p.status = "shortlisted" ∨
      (p.status = "under_review" ∧ pendingApprovalFlagged p = true) := by
  have hp' : s.proposals.find? (fun x => x.id == propId) = some p := hp
  cases a with
  | createRfp creator t d fw sw bw =>
    refine shortlist_case_unchanged ?_ hp hq hqs
    cases hcr : createRfpSubmit true t d fw sw bw creator with
    | none => simp [step, hcr]
    | some d0 => simp [step, hcr]
  | editRfp userId rfpId t d fw sw bw sfa =>
    refine shortlist_case_unchanged ?_ hp hq hqs
    cases hf : findRfp s rfpId with
    | none => simp [step, hf]
    | some rfp =>
      cases hf2 : editRfpSubmit rfp userId (!sfa) sfa t d fw sw bw with
      | none => simp [step, hf, hf2]
      | some u => simp [step, hf, hf2]
  | approveRfp rfpId =>
    refine shortlist_case_unchanged ?_ hp hq hqs
    cases hf : findRfp s rfpId with
    | none => simp [step, hf]
    | some rfp =>
      simp only [step, hf]
      split <;> rfl
  | rejectRfp rfpId =>
    refine shortlist_case_unchanged ?_ hp hq hqs
    cases hf : findRfp s rfpId with
    | none => simp [step, hf]
    | some rfp =>
      simp only [step, hf]
      split <;> rfl
  | publishRfp userId rfpId =>
    refine shortlist_case_unchanged ?_ hp hq hqs
    cases hf : findRfp s rfpId with
    | none => simp [step, hf]
    | some rfp =>
      simp only [step, hf]
      split <;> rfl
  | publishRfpNoTeam userId rfpId =>
    refine shortlist_case_unchanged ?_ hp hq hqs
    cases hf : findRfp s rfpId with
    | none => simp [step, hf]
    | some rfp =>
      simp only [step, hf]
      split <;> rfl
  | addTeamMember rfpId userId role =>
    refine shortlist_case_unchanged ?_ hp hq hqs
    cases hf : findRfp s rfpId with
    | none => simp [step, hf]
    | some rfp =>
      simp only [step, hf]
      split <;> rfl
  | removeTeamMember rfpId userId =>
    exact shortlist_case_unchanged rfl hp hq hqs
  | saveEvaluationDraft userId propId2 scores =>
    refine shortlist_case_unchanged ?_ hp hq hqs
    cases hf : s.evaluations.find?
        (fun e => e.proposalId == propId2 && e.evaluatorId == userId) with
    | none => simp [step, hf]
    | some e => simp [step, hf]
  | quickStatusChange propId2 newStatus =>
    simp [isQuickStatusChange] at ha
  | submitProposal rfpId vendorId sm se =>
    cases hf : findRfp s rfpId with
    | none => exact shortlist_case_unchanged (by simp [step, hf]) hp hq hqs
    | some rfp =>
      have hsplit : (step s (.submitProposal rfpId vendorId sm se)).proposals
            = s.proposals
          ∨ ∃ newp, (step s (.submitProposal rfpId vendorId sm se)).proposals
            = s.proposals ++ [newp] := by
        simp only [step, hf]
        split
        · right
          exact ⟨_, rfl⟩
        · left
          rfl
      cases hsplit with
      | inl hps => exact shortlist_case_unchanged hps hp hq hqs
      | inr hex =>
        obtain ⟨newp, hps⟩ := hex
        have hq2 : (s.proposals ++ [newp]).find? (fun x => x.id == propId)
            = some q := by
          rw [← hps]
          exact hq
        rw [List.find?_append, hp', Option.or_some] at hq2
        have hqp : q = p := (Option.some.inj hq2).symm
        rw [hqp] at hqs
        exact Or.inl hqs
  | submitEvaluation userId propId2 scores =>
    cases hf : s.evaluations.find?
        (fun e => e.proposalId == propId2 && e.evaluatorId == userId) with
    | none => exact shortlist_case_unchanged (by simp [step, hf]) hp hq hqs
    | some e =>
      have hps : (step s (.submitEvaluation userId propId2 scores)).proposals
          = setProposalStatus s.proposals propId2 "under_review" := by
        simp [step, hf]
      have hq2 : (setProposalStatus s.proposals propId2 "under_review").find?
          (fun x => x.id == propId) = some q := by
        rw [← hps]
        exact hq
      have hqv := row_after_status_write hp' hq2
      by_cases hpt : (p.id == propId2) = true
      · rw [hpt, if_pos rfl] at hqv
        rw [hqv] at hqs
        simp at hqs
      · rw [if_neg hpt] at hqv
        rw [hqv] at hqs
        exact Or.inl hqs
  | sendForApproval propId2 =>
    have hsplit : (step s (.sendForApproval propId2)).proposals = s.proposals
        ∨ (step s (.sendForApproval propId2)).proposals
          = setProposalStatusSummary s.proposals propId2 "under_review"
            ("[PENDING_APPROVAL] " ++ "Proposal ready for approval") := by
      simp only [step]
      split
      · right
        rfl
      · left
        rfl
    cases hsplit with
    | inl hps => exact shortlist_case_unchanged hps hp hq hqs
    | inr hps =>
      have hq2 : (setProposalStatusSummary s.proposals propId2 "under_review"
          ("[PENDING_APPROVAL] " ++ "Proposal ready for approval")).find?
          (fun x => x.id == propId) = some q := by
        rw [← hps]
        exact hq
      have hqv := row_after_status_summary_write hp' hq2
      by_cases hpt : (p.id == propId2) = true
      · rw [hpt, if_pos rfl] at hqv
        rw [hqv] at hqs
        simp at hqs
      · rw [if_neg hpt] at hqv
        rw [hqv] at hqs
        exact Or.inl hqs
  | approveProposal propId2 =>
    cases hf : findProposal s propId2 with
    | none => exact shortlist_case_unchanged (by simp [step, hf]) hp hq hqs
    | some pt =>
      have hsplit : (step s (.approveProposal propId2)).proposals = s.proposals
          ∨ ((step s (.approveProposal propId2)).proposals
              = setProposalStatusSummary s.proposals propId2 "shortlisted"
                (stripApprovalMarker pt.summary)
            ∧ (pt.status == "under_review" && pendingApprovalFlagged pt
                && decide (0 < (completedFor s propId2).length)) = true) := by
        simp only [step, hf]
        split
        · next hcond => exact Or.inr ⟨rfl, hcond⟩
        · left
          rfl
      cases hsplit with
      | inl hps => exact shortlist_case_unchanged hps hp hq hqs
      | inr hex =>
        obtain ⟨hps, hg⟩ := hex
        have hq2 : (setProposalStatusSummary s.proposals propId2 "shortlisted"
            (stripApprovalMarker pt.summary)).find?
            (fun x => x.id == propId) = some q := by
          rw [← hps]
          exact hq
        have hqv := row_after_status_summary_write hp' hq2
        by_cases hpt : (p.id == propId2) = true
        · have hpid : p.id = propId := by
            have h2 := List.find?_some hp'
            simpa using h2
          have hpid2 : p.id = propId2 := by simpa using hpt
          have hsame : propId = propId2 := hpid ▸ hpid2
          have hfp : findProposal s propId2 = some p := by
            rw [← hsame]
            exact hp
          rw [hfp] at hf
          have hptp : pt = p := (Option.some.inj hf).symm
          rw [hptp] at hg
          simp only [Bool.and_eq_true] at hg
          right
          refine ⟨?_, hg.1.2⟩
          have h3 := hg.1.1
          simpa using h3
        · rw [if_neg hpt] at hqv
          rw [hqv] at hqs
          exact Or.inl hqs
  | rejectProposal propId2 =>
    cases hf : findProposal s propId2 with
    | none => exact shortlist_case_unchanged (by simp [step, hf]) hp hq hqs
    | some pt =>
      have hsplit : (step s (.rejectProposal propId2)).proposals = s.proposals
          ∨ (step s (.rejectProposal propId2)).proposals
            = setProposalStatusSummary s.proposals propId2 "rejected"
              (stripApprovalMarker pt.summary) := by
        simp only [step, hf]
        split
        · right
          rfl
        · left
          rfl
      cases hsplit with
      | inl hps => exact shortlist_case_unchanged hps hp hq hqs
      | inr hps =>
        have hq2 : (setProposalStatusSummary s.proposals propId2 "rejected"
            (stripApprovalMarker pt.summary)).find?
            (fun x => x.id == propId) = some q := by
          rw [← hps]
          exact hq
        have hqv := row_after_status_summary_write hp' hq2
        by_cases hpt : (p.id == propId2) = true
        · rw [hpt, if_pos rfl] at hqv
          rw [hqv] at hqs
          simp at hqs
        · rw [if_neg hpt] at hqv
          rw [hqv] at hqs
          exact Or.inl hqs
  | sendBackForReview propId2 =>
    cases hf : findProposal s propId2 with
    | none => exact shortlist_case_unchanged (by simp [step, hf]) hp hq hqs
    | some pt =>
      have hsplit : (step s (.sendBackForReview propId2)).proposals
            = s.proposals
          ∨ (step s (.sendBackForReview propId2)).proposals
            = setProposalStatusSummary s.proposals propId2 "under_review"
              (stripApprovalMarker pt.summary) := by
        simp only [step, hf]
        split
        · right
          rfl
        · left
          rfl
      cases hsplit with
      | inl hps => exact shortlist_case_unchanged hps hp hq hqs
      | inr hps =>
        have hq2 : (setProposalStatusSummary s.proposals propId2 "under_review"
            (stripApprovalMarker pt.summary)).find?
            (fun x => x.id == propId) = some q := by
          rw [← hps]
          exact hq
        have hqv := row_after_status_summary_write hp' hq2
        by_cases hpt : (p.id == propId2) = true
        · rw [hpt, if_pos rfl] at hqv
          rw [hqv] at hqs
          simp at hqs
        · rw [if_neg hpt] at hqv
          rw [hqv] at hqs
          exact Or.inl hqs

/-- C4 amended witness: applying the approvals-page approve action to a
flagged under-review proposal yields `shortlisted`, and the one-step lemma
instantiates there with its guard facts discharged. -/
theorem C4_amended_shortlisted_needs_flagged_review_witness :
    flaggedProposal.status = "shortlisted" ∨
      (flaggedProposal.status = "under_review" ∧
        pendingApprovalFlagged flaggedProposal = true) :=
  C4_amended_shortlisted_needs_flagged_review flaggedState
    (.approveProposal 0) 0 flaggedProposal
    { flaggedProposal with
      status := "shortlisted",
      summary := "Proposal ready for approval" }
    (by decide) (by decide) (by decide) (by decide)

/-- C5 counterexample: `DatabaseManager.create_evaluation` is a plain
insert; invoking it a second time with the same (proposal, evaluator) pair
neither rejects the call nor updates the existing record — it leaves two
records for the pair, violating the invariant right after a create
operation. -/
theorem C5_counterexample :
    ((createEvaluationDb (createEvaluationDb [] dupEvalA) dupEvalB).filter
      (fun e => e.proposalId == 3 && e.evaluatorId == 9)).length = 2 ∧
    createEvaluationDb (createEvaluationDb [] dupEvalA) dupEvalB
      ≠ [dupEvalA] ∧
    ¬EvalPairsUnique
      (createEvaluationDb (createEvaluationDb [] dupEvalA) dupEvalB) := by
  refine ⟨by decide, by decide, ?_⟩
  intro h
  have h2 := List.rel_of_pairwise_cons h (List.mem_singleton.mpr rfl)
  exact h2 ⟨rfl, rfl⟩

/-- Every evaluation created at a proposal submission carries the fresh
proposal id. -/
lemma newEvaluations_proposalId (baseId propId : ℕ) (ms : List TeamMember) :
    ∀ e ∈ newEvaluations baseId propId ms, e.proposalId = propId := by
  induction ms generalizing baseId with
  | nil =>
    intro e he
    cases he
  | cons m rest ih =>
    intro e he
    rw [newEvaluations] at he
    rcases List.mem_cons.mp he with h1 | h2
    · rw [h1]
    · exact ih (baseId + 1) e h2

/-- Every evaluation created at a proposal submission belongs to one of the
assigned team members. -/
lemma newEvaluations_evaluatorId (baseId propId : ℕ) (ms : List TeamMember) :
    ∀ e ∈ newEvaluations baseId propId ms,
      ∃ m ∈ ms, e.evaluatorId = m.userId := by
  induction ms generalizing baseId with
  | nil =>
    intro e he
    cases he
  | cons m rest ih =>
    intro e he
    rw [newEvaluations] at he
    rcases List.mem_cons.mp he with h1 | h2
    · exact ⟨m, List.mem_cons_self m rest, by rw [h1]⟩
    · obtain ⟨m2, hm2, hev⟩ := ih (baseId + 1) e h2
      exact ⟨m2, List.mem_cons_of_mem m hm2, hev⟩

/-- Evaluations created for pairwise-distinct evaluators have pairwise
distinct (proposal, evaluator) pairs. -/
lemma newEvaluations_pairsUnique (baseId propId : ℕ) (ms : List TeamMember)
    (h : ms.Pairwise (fun a b => a.userId ≠ b.userId)) :
    EvalPairsUnique (newEvaluations baseId propId ms) := by
  induction ms generalizing baseId with
  | nil => exact List.Pairwise.nil
  | cons m rest ih =>
    rcases List.pairwise_cons.mp h with ⟨hm, hrest⟩
    rw [newEvaluations]
    refine List.Pairwise.cons ?_ (ih (baseId + 1) hrest)
    intro e he hpair
    obtain ⟨m2, hm2, hev⟩ := newEvaluations_evaluatorId (baseId + 1) propId
      rest e he
    have hne := hm m2 hm2
    apply hne
    have h2 := hpair.2
    simp only [] at h2
    rw [hev] at h2
    exact h2

/-- Within one RFP, the team-pair invariant gives pairwise distinct
evaluator user ids for the filtered evaluator list. -/
lemma evaluators_pairwise_userId (team : List TeamMember)
    (h : TeamPairsUnique team) (rfpId : ℕ) :
    (team.filter (fun m => m.rfpId == rfpId && m.role == "evaluator")).Pairwise
      (fun a b => a.userId ≠ b.userId) := by
  have hsub : (team.filter
      (fun m => m.rfpId == rfpId && m.role == "evaluator")).Pairwise
      (fun a b => ¬(a.rfpId = b.rfpId ∧ a.userId = b.userId)) :=
    List.Pairwise.sublist (List.filter_sublist team) h
  refine hsub.imp_of_mem ?_
  intro a b ha hb hr hequ
  have ha2 := (List.mem_filter.mp ha).2
  have hb2 := (List.mem_filter.mp hb).2
  simp only [Bool.and_eq_true, beq_iff_eq] at ha2 hb2
  exact hr ⟨ha2.1.trans hb2.1.symm, hequ⟩

/-- An evaluation-record update that touches neither key field preserves
pair uniqueness. -/
lemma evalPairsUnique_map (evals : List Evaluation)
    (f : Evaluation → Evaluation)
    (hfp : ∀ e, (f e).proposalId = e.proposalId)
    (hfe : ∀ e, (f e).evaluatorId = e.evaluatorId)
    (h : EvalPairsUnique evals) : EvalPairsUnique (evals.map f) := by
  rw [EvalPairsUnique, List.pairwise_map]
  refine h.imp ?_
  intro a b hr hcontra
  rw [hfp, hfp, hfe, hfe] at hcontra
  exact hr hcontra

/-- Component-wise transfer of the machine invariant. -/
lemma inv_of_components {s s2 : AppState} (h : Inv s)
    (he : s2.evaluations = s.evaluations) (ht : s2.team = s.team)
    (hn : s2.nextProposalId = s.nextProposalId) : Inv s2 := by
  obtain ⟨h1, h2, h3⟩ := h
  refine ⟨?_, ?_, ?_⟩
  · rw [he]
    exact h1
  · rw [ht]
    exact h2
  · rw [he, hn]
    exact h3

/-- Every user action preserves the machine invariant: in particular no
action ever produces two evaluation records for one (proposal, evaluator)
pair. -/
lemma inv_step (s : AppState) (a : Action) (h : Inv s) : Inv (step s a) := by
  cases a with
  | createRfp creator t d fw sw bw =>
    cases hcr : createRfpSubmit true t d fw sw bw creator with
    | none =>
      exact inv_of_components h (by simp [step, hcr]) (by simp [step, hcr])
        (by simp [step, hcr])
    | some d0 =>
      exact inv_of_components h (by simp [step, hcr]) (by simp [step, hcr])
        (by simp [step, hcr])
  | editRfp userId rfpId t d fw sw bw sfa =>
    cases hf : findRfp s rfpId with
    | none =>
      exact inv_of_components h (by simp [step, hf]) (by simp [step, hf])
        (by simp [step, hf])
    | some rfp =>
      cases hf2 : editRfpSubmit rfp userId (!sfa) sfa t d fw sw bw with
      | none =>
        exact inv_of_components h (by simp [step, hf, hf2])
          (by simp [step, hf, hf2]) (by simp [step, hf, hf2])
      | some u =>
        exact inv_of_components h (by simp [step, hf, hf2])
          (by simp [step, hf, hf2]) (by simp [step, hf, hf2])
  | approveRfp rfpId =>
    cases hf : findRfp s rfpId with
    | none =>
      exact inv_of_components h (by simp [step, hf]) (by simp [step, hf])
        (by simp [step, hf])
    | some rfp =>
      refine inv_of_components h ?_ ?_ ?_ <;>
        (simp only [step, hf]; split <;> rfl)
  | rejectRfp rfpId =>
    cases hf : findRfp s rfpId with
    | none =>
      exact inv_of_components h (by simp [step, hf]) (by simp [step, hf])
        (by simp [step, hf])
    | some rfp =>
      refine inv_of_components h ?_ ?_ ?_ <;>
        (simp only [step, hf]; split <;> rfl)
  | publishRfp userId rfpId =>
    cases hf : findRfp s rfpId with
    | none =>
      exact inv_of_components h (by simp [step, hf]) (by simp [step, hf])
        (by simp [step, hf])
    | some rfp =>
      refine inv_of_components h ?_ ?_ ?_ <;>
        (simp only [step, hf]; split <;> rfl)
  | publishRfpNoTeam userId rfpId =>
    cases hf : findRfp s rfpId with
    | none =>
      exact inv_of_components h (by simp [step, hf]) (by simp [step, hf])
        (by simp [step, hf])
    | some rfp =>
      refine inv_of_components h ?_ ?_ ?_ <;>
        (simp only [step, hf]; split <;> rfl)
  | addTeamMember rfpId userId role =>
    cases hf : findRfp s rfpId with
    | none =>
      exact inv_of_components h (by simp [step, hf]) (by simp [step, hf])
        (by simp [step, hf])
    | some rfp =>
      obtain ⟨h1, h2, h3⟩ := h
      simp only [step, hf]
      split
      · next hcond =>
        refine ⟨h1, ?_, h3⟩
        show TeamPairsUnique (s.team ++
          [{ rfpId := rfpId, userId := userId, role := role }])
        rw [TeamPairsUnique, List.pairwise_append]
        refine ⟨h2, List.pairwise_singleton _ _, ?_⟩
        intro a hain b hbin
        rw [List.mem_singleton] at hbin
        rw [hbin]
        intro hcontra
        simp only [Bool.and_eq_true, List.all_eq_true] at hcond
        have hall := hcond.1.1
        have hmem : a ∈ s.team.filter (fun m => m.rfpId == rfpId) := by
          rw [List.mem_filter]
          refine ⟨hain, ?_⟩
          simp only [beq_iff_eq]
          exact hcontra.1
        have hne := hall a hmem
        simp only [bne_iff_ne, ne_eq] at hne
        exact hne hcontra.2
      · exact ⟨h1, h2, h3⟩
  | removeTeamMember rfpId userId =>
    obtain ⟨h1, h2, h3⟩ := h
    refine ⟨h1, ?_, h3⟩
    show TeamPairsUnique (s.team.filter
      (fun m => !(m.rfpId == rfpId && m.userId == userId)))
    exact List.Pairwise.sublist (List.filter_sublist s.team) h2
  | submitProposal rfpId vendorId sm se =>
    cases hf : findRfp s rfpId with
    | none =>
      exact inv_of_components h (by simp [step, hf]) (by simp [step, hf])
        (by simp [step, hf])
    | some rfp =>
      obtain ⟨h1, h2, h3⟩ := h
      simp only [step, hf]
      split
      · refine ⟨?_, h2, ?_⟩
        · show EvalPairsUnique (s.evaluations ++
            (if se then newEvaluations s.nextEvaluationId s.nextProposalId
              (s.team.filter
                (fun m => m.rfpId == rfpId && m.role == "evaluator"))
             else []))
          rw [EvalPairsUnique, List.pairwise_append]
          refine ⟨h1, ?_, ?_⟩
          · cases se
            · simp
            · simp only [if_true]
              exact newEvaluations_pairsUnique _ _ _
                (evaluators_pairwise_userId s.team h2 rfpId)
          · intro a hain b hbin hcontra
            cases se
            · simp at hbin
            · simp only [if_true] at hbin
              have hbp := newEvaluations_proposalId _ _ _ b hbin
              have hap := h3 a hain
              rw [hcontra.1, hbp] at hap
              exact Nat.lt_irrefl _ hap
        · intro e2 he2
          show e2.proposalId < s.nextProposalId + 1
          have he2' : e2 ∈ s.evaluations ++
              (if se then newEvaluations s.nextEvaluationId s.nextProposalId
                (s.team.filter
                  (fun m => m.rfpId == rfpId && m.role == "evaluator"))
               else []) := he2
          rcases List.mem_append.mp he2' with hold | hnew
          · exact Nat.lt_succ_of_lt (h3 e2 hold)
          · cases se
            · simp at hnew
            · simp only [if_true] at hnew
              rw [newEvaluations_proposalId _ _ _ e2 hnew]
              exact Nat.lt_succ_self _
      · exact ⟨h1, h2, h3⟩
  | quickStatusChange propId2 ns =>
    cases hf : findProposal s propId2 with
    | none =>
      exact inv_of_components h (by simp [step, hf]) (by simp [step, hf])
        (by simp [step, hf])
    | some p =>
      refine inv_of_components h ?_ ?_ ?_ <;>
        (simp only [step, hf]; split <;> rfl)
  | saveEvaluationDraft userId propId2 scores =>
    cases hf : s.evaluations.find?
        (fun e => e.proposalId == propId2 && e.evaluatorId == userId) with
    | none =>
      exact inv_of_components h (by simp [step, hf]) (by simp [step, hf])
        (by simp [step, hf])
    | some e =>
      obtain ⟨h1, h2, h3⟩ := h
      simp only [step, hf]
      refine ⟨?_, h2, ?_⟩
      · show EvalPairsUnique (s.evaluations.map (fun x =>
          if x.id == e.id then applyEvaluationUpdate x scores "pending"
          else x))
        refine evalPairsUnique_map _ _ ?_ ?_ h1
        · intro x
          by_cases hc : (x.id == e.id) = true <;>
            simp [applyEvaluationUpdate, hc]
        · intro x
          by_cases hc : (x.id == e.id) = true <;>
            simp [applyEvaluationUpdate, hc]
      · intro e2 he2
        show e2.proposalId < s.nextProposalId
        have he2' : e2 ∈ s.evaluations.map (fun x =>
            if x.id == e.id then applyEvaluationUpdate x scores "pending"
            else x) := he2
        rw [List.mem_map] at he2'
        obtain ⟨x, hx, hex⟩ := he2'
        have hpp : e2.proposalId = x.proposalId := by
          rw [← hex]
          by_cases hc : (x.id == e.id) = true <;>
            simp [applyEvaluationUpdate, hc]
        rw [hpp]
        exact h3 x hx
  | submitEvaluation userId propId2 scores =>
    cases hf : s.evaluations.find?
        (fun e => e.proposalId == propId2 && e.evaluatorId == userId) with
    | none =>
      exact inv_of_components h (by simp [step, hf]) (by simp [step, hf])
        (by simp [step, hf])
    | some e =>
      obtain ⟨h1, h2, h3⟩ := h
      simp only [step, hf]
      refine ⟨?_, h2, ?_⟩
      · show EvalPairsUnique (s.evaluations.map (fun x =>
          if x.id == e.id then applyEvaluationUpdate x scores "completed"
          else x))
        refine evalPairsUnique_map _ _ ?_ ?_ h1
        · intro x
          by_cases hc : (x.id == e.id) = true <;>
            simp [applyEvaluationUpdate, hc]
        · intro x
          by_cases hc : (x.id == e.id) = true <;>
            simp [applyEvaluationUpdate, hc]
      · intro e2 he2
        show e2.proposalId < s.nextProposalId
        have he2' : e2 ∈ s.evaluations.map (fun x =>
            if x.id == e.id then applyEvaluationUpdate x scores "completed"
            else x) := he2
        rw [List.mem_map] at he2'
        obtain ⟨x, hx, hex⟩ := he2'
        have hpp : e2.proposalId = x.proposalId := by
          rw [← hex]
          by_cases hc : (x.id == e.id) = true <;>
            simp [applyEvaluationUpdate, hc]
        rw [hpp]
        exact h3 x hx
  | sendForApproval propId2 =>
    refine inv_of_components h ?_ ?_ ?_ <;>
      (simp only [step]; split <;> rfl)
  | approveProposal propId2 =>
    cases hf : findProposal s propId2 with
    | none =>
      exact inv_of_components h (by simp [step, hf]) (by simp [step, hf])
        (by simp [step, hf])
    | some p =>
      refine inv_of_components h ?_ ?_ ?_ <;>
        (simp only [step, hf]; split <;> rfl)
  | rejectProposal propId2 =>
    cases hf : findProposal s propId2 with
    | none =>
      exact inv_of_components h (by simp [step, hf]) (by simp [step, hf])
        (by simp [step, hf])
    | some p =>
      refine inv_of_components h ?_ ?_ ?_ <;>
        (simp only [step, hf]; split <;> rfl)
  | sendBackForReview propId2 =>
    cases hf : findProposal s propId2 with
    | none =>
      exact inv_of_components h (by simp [step, hf]) (by simp [step, hf])
        (by simp [step, hf])
    | some p =>
      refine inv_of_components h ?_ ?_ ?_ <;>
        (simp only [step, hf]; split <;> rfl)

/-- The invariant holds along every run. -/
lemma inv_run (acts : List Action) : ∀ s, Inv s → Inv (run s acts) := by
  induction acts with
  | nil =>
    intro s h
    exact h
  | cons a rest ih =>
    intro s h
    exact ih (step s a) (inv_step s a h)

/-- C5 (amended): in every store reachable from the empty store by user
actions, no two evaluation records share a (proposal, evaluator) pair — the
application only ever creates evaluations for a freshly allocated proposal
id, one per distinct evaluator team member, and score updates never touch
the key fields.  (The raw create operation itself performs no duplicate
check; see the counterexample.) -/
theorem C5_amended_unique_pairs (acts : List Action) :
    EvalPairsUnique (run initState acts).evaluations := by
  have hinit : Inv initState := by
    refine ⟨List.Pairwise.nil, List.Pairwise.nil, ?_⟩
    intro e he
    cases he
  exact (inv_run acts initState hinit).1

end Procurement

